import Mathlib

/-!
# Verification of the liquid-glass optical core

Shallow embedding of the fragment shader `FRAGMENT_SHADER` from
`gnome-liquide@logo000/shader.js` and of the uniform-upload path of
`LiquidGlassEffect.vfunc_paint_target` in `gnome-liquide@logo000/effect.js`.

GLSL float arithmetic is modelled over the reals; each GLSL builtin used by
the shader (`clamp`, `mix`, `smoothstep`, `length`, `normalize`, `refract`,
`dot`) is defined following the GLSL specification.  The per-pixel entry
point `main` mirrors the shader line by line; the uniform-upload path of
`effect.js` only subtracts a constant, so it is modelled over the rationals,
where it is exactly computable.
-/

noncomputable section

namespace LiquidGlass

/-- GLSL `vec2`, modelled as a pair of reals. -/
abbrev Vec2 := ℝ × ℝ

/-- GLSL `vec3`, modelled as a triple of reals. -/
abbrev Vec3 := ℝ × ℝ × ℝ

/-- GLSL `dot` on `vec3`. -/
def dot3 (a b : Vec3) : ℝ := a.1 * b.1 + a.2.1 * b.2.1 + a.2.2 * b.2.2

/-- GLSL `length` on `vec2`. -/
def length2 (v : Vec2) : ℝ := Real.sqrt (v.1 ^ 2 + v.2 ^ 2)

/-- GLSL `length` on `vec3`. -/
def length3 (v : Vec3) : ℝ := Real.sqrt (v.1 ^ 2 + v.2.1 ^ 2 + v.2.2 ^ 2)

/-- GLSL `normalize` on `vec3` (`v / length(v)`). -/
def normalize3 (v : Vec3) : Vec3 :=
  (v.1 / length3 v, v.2.1 / length3 v, v.2.2 / length3 v)

/-- GLSL scalar `clamp(x, lo, hi) = min(max(x, lo), hi)`. -/
def clamp (x lo hi : ℝ) : ℝ := min (max x lo) hi

/-- GLSL componentwise `clamp` on `vec2`. -/
def clamp2 (v lo hi : Vec2) : Vec2 := (clamp v.1 lo.1 hi.1, clamp v.2 lo.2 hi.2)

/-- GLSL scalar `mix(x, y, a) = x*(1-a) + y*a`. -/
def mix (x y a : ℝ) : ℝ := x * (1 - a) + y * a

/-- GLSL componentwise `mix` on `vec3` with scalar interpolant. -/
def mix3 (x y : Vec3) (a : ℝ) : Vec3 :=
  (mix x.1 y.1 a, mix x.2.1 y.2.1 a, mix x.2.2 y.2.2 a)

/-- Scalar multiplication of a `vec3` (GLSL `s * v`). -/
def smul3 (c : ℝ) (v : Vec3) : Vec3 := (c * v.1, c * v.2.1, c * v.2.2)

/-- GLSL `smoothstep(e0, e1, x)`. -/
def smoothstep (e0 e1 x : ℝ) : ℝ :=
  let t := clamp ((x - e0) / (e1 - e0)) 0 1
  t * t * (3 - 2 * t)

/-- GLSL `refract(I, N, eta)`: returns the zero vector on total internal
reflection (`k < 0`), otherwise the refracted ray. -/
def refract (I N : Vec3) (eta : ℝ) : Vec3 :=
  let d := dot3 N I
  let k := 1 - eta * eta * (1 - d * d)
  if k < 0 then (0, 0, 0)
  else (eta * I.1 - (eta * d + Real.sqrt k) * N.1,
        eta * I.2.1 - (eta * d + Real.sqrt k) * N.2.1,
        eta * I.2.2 - (eta * d + Real.sqrt k) * N.2.2)

/-- shader.js line 31: `#define LIGHT_DIR vec3(-0.32444, 0.48666, 0.81110)`. -/
def LIGHT_DIR : Vec3 := (-0.32444, 0.48666, 0.81110)

/-- shader.js line 33: `#define HALF_VEC vec3(-0.17045, 0.25568, 0.95156)`. -/
def HALF_VEC : Vec3 := (-0.17045, 0.25568, 0.95156)

/-- shader.js lines 35-39: rounded-rectangle signed distance `sdf(p, h, r)`. -/
def sdf (p h : Vec2) (r0 : ℝ) : ℝ :=
  let r := min r0 (min h.1 h.2)
  let d : Vec2 := (|p.1| - h.1 + r, |p.2| - h.2 + r)
  min (max d.1 d.2) 0 + length2 (max d.1 0, max d.2 0) - r

/-- shader.js line 48: the golden-angle constant `GA = 2.39996323`. -/
def GA : ℝ := 2.39996323

/-- shader.js lines 50-53: the spiral offset of tap `i`:
`vec2(cos(a), sin(a)) * r * invRes` with `r = sqrt((fi + 0.5) * (1/12)) * blur`
and `a = fi * GA`. -/
def tapOffset (i : ℕ) (blur : ℝ) (invRes : Vec2) : Vec2 :=
  let fi : ℝ := i
  let r := Real.sqrt ((fi + 0.5) * (1 / 12)) * blur
  let a := fi * GA
  (Real.cos a * r * invRes.1, Real.sin a * r * invRes.2)

/-- shader.js lines 45-55: the accumulation loop of `tap`, modelled as a
recursion on the number of completed iterations (`tapSum … n` is the value of
`s` after the loop body ran for `i = 0, …, n-1`). -/
def tapSum (tex : Vec2 → Vec3) (uv invRes : Vec2) (blur : ℝ) : ℕ → Vec3
  | 0 => (0, 0, 0)
  | n + 1 => tapSum tex uv invRes blur n +
      tex (clamp2 (uv + tapOffset n blur invRes) invRes (1 - invRes.1, 1 - invRes.2))

/-- shader.js lines 42-57: `tap(uv, invRes, blur)`.  The incoming coordinate
is clamped to `[invRes, 1 - invRes]`, a single sample is returned when
`blur < 0.5`, otherwise 12 spiral samples are averaged (`s * INV_N`). -/
def tap (tex : Vec2 → Vec3) (uv0 invRes : Vec2) (blur : ℝ) : Vec3 :=
  let uv := clamp2 uv0 invRes (1 - invRes.1, 1 - invRes.2)
  if blur < 0.5 then tex uv
  else smul3 (1 / 12) (tapSum tex uv invRes blur 12)

/-- shader.js line 75: `q = min(abs(p) / hs, vec2(1.0))`. -/
def qOf (p hs : Vec2) : Vec2 := (min (|p.1| / hs.1) 1, min (|p.2| / hs.2) 1)

/-- shader.js line 76: `ax = max(1.0 - q.x * q.x, 0.0)`. -/
def axOf (p hs : Vec2) : ℝ := max (1 - (qOf p hs).1 * (qOf p hs).1) 0

/-- shader.js line 77: `ay = max(1.0 - q.y * q.y, 0.0)`. -/
def ayOf (p hs : Vec2) : ℝ := max (1 - (qOf p hs).2 * (qOf p hs).2) 0

/-- shader.js line 78: `t = ax * ay`. -/
def tOf (p hs : Vec2) : ℝ := axOf p hs * ayOf p hs

/-- shader.js lines 80-83: `om = 1 - t; base = max(1 - om^4, 1e-6)`
(`om4 = om2 * om2` with `om2 = om * om`). -/
def baseOf (p hs : Vec2) : ℝ :=
  let om := 1 - tOf p hs
  max (1 - om * om * (om * om)) 1e-6

/-- shader.js lines 86-87: `ht = sqrt(sqrt(base))`, the quarter-power
squircle height. -/
def htOf (p hs : Vec2) : ℝ := Real.sqrt (Real.sqrt (baseOf p hs))

/-- shader.js lines 90-91: `hp = om2 * om / max(sqrt(base) * ht, 0.08)`. -/
def hpOf (p hs : Vec2) : ℝ :=
  let om := 1 - tOf p hs
  om * om * om / max (Real.sqrt (baseOf p hs) * htOf p hs) 0.08

/-- shader.js lines 94-95: the height gradient
`hGrad = hp * vec2(-2 p.x invHs2.x ay, -2 p.y invHs2.y ax)`.  The shader
computes `invHs2 = 4 * invRes * invRes`, which (its own comment notes) equals
`1/(hs*hs)` because `hs = res * 0.5`; both expressions agree as real-valued
functions, so the gradient is written here directly in terms of `hs`. -/
def hGradOf (p hs : Vec2) : Vec2 :=
  (hpOf p hs * (-2 * p.1 * (1 / (hs.1 * hs.1)) * ayOf p hs),
   hpOf p hs * (-2 * p.2 * (1 / (hs.2 * hs.2)) * axOf p hs))

/-- shader.js line 97: `N = normalize(vec3(-hGrad * 50.0, 1.0))`. -/
def NOf (p hs : Vec2) : Vec3 :=
  normalize3 (-(hGradOf p hs).1 * 50, -(hGradOf p hs).2 * 50, 1)

/-- shader.js line 100: the incident ray `I = vec3(0.0, 0.0, -1.0)`. -/
def I3 : Vec3 := (0, 0, -1)

/-- shader.js line 101: `scaleInv = length(res) * 0.1 * u_dist * invRes`. -/
def scaleInvOf (res : Vec2) (dist : ℝ) : Vec2 :=
  (length2 res * 0.1 * dist * (1 / res.1), length2 res * 0.1 * dist * (1 / res.2))

/-- shader.js lines 103-104: the green-channel refracted ray with its total
internal reflection fallback: `rG = refract(I, N, 1/u_ior);
if (dot(rG, rG) < 0.001) rG = I;`. -/
def rGOf (N : Vec3) (ior : ℝ) : Vec3 :=
  let r := refract I3 N (1 / ior)
  if dot3 r r < 0.001 then I3 else r

/-- shader.js line 105: `uvG = v_uv + rG.xy * scaleInv`. -/
def uvGOf (v_uv res : Vec2) (dist : ℝ) (N : Vec3) (ior : ℝ) : Vec2 :=
  (v_uv.1 + (rGOf N ior).1 * (scaleInvOf res dist).1,
   v_uv.2 + (rGOf N ior).2.1 * (scaleInvOf res dist).2)

/-- shader.js lines 108-121: the background colour `col`: the three-ray
chromatic-aberration path when `u_ca > 0.001`, otherwise a single tap at
`uvG`. -/
def colSample (tex : Vec2 → Vec3) (v_uv res invRes : Vec2)
    (ior ca dist blur : ℝ) (N : Vec3) : Vec3 :=
  if 0.001 < ca then
    let rG := rGOf N ior
    let rR0 := refract I3 N (1 / (ior + ca * 12))
    let rB0 := refract I3 N (1 / max (ior - ca * 12) 1.001)
    let rR := if dot3 rR0 rR0 < 0.001 then rG else rR0
    let rB := if dot3 rB0 rB0 < 0.001 then rG else rB0
    ((tap tex (v_uv.1 + rR.1 * (scaleInvOf res dist).1,
               v_uv.2 + rR.2.1 * (scaleInvOf res dist).2) invRes blur).1,
     (tap tex (uvGOf v_uv res dist N ior) invRes blur).2.1,
     (tap tex (v_uv.1 + rB.1 * (scaleInvOf res dist).1,
               v_uv.2 + rB.2.1 * (scaleInvOf res dist).2) invRes blur).2.2)
  else
    tap tex (uvGOf v_uv res dist N ior) invRes blur

/-- shader.js lines 130-137: the specular multiply chain
`s2 = sb*sb; s4 = s2*s2; …; s64 = s32*s32; spec = s64 * s16 * 0.45`. -/
def specChain (sb : ℝ) : ℝ :=
  let s2 := sb * sb
  let s4 := s2 * s2
  let s8 := s4 * s4
  let s16 := s8 * s8
  let s32 := s16 * s16
  let s64 := s32 * s32
  s64 * s16 * 0.45

/-- shader.js line 65: pixel coordinates centred on the widget,
`p = v_uv * res - res * 0.5`. -/
def pOf (w h : ℝ) (v_uv : Vec2) : Vec2 :=
  (v_uv.1 * w - w * 0.5, v_uv.2 * h - h * 0.5)

/-- shader.js line 66: half extents `hs = res * 0.5`. -/
def hsOf (w h : ℝ) : Vec2 := (w * 0.5, h * 0.5)

/-- shader.js lines 67-69: the signed distance at the pixel, with the corner
radius clamped by `cr = min(u_cr, min(hs.x, hs.y))`. -/
def dOf (w h cr0 : ℝ) (v_uv : Vec2) : ℝ :=
  sdf (pOf w h v_uv) (hsOf w h) (min cr0 (min (hsOf w h).1 (hsOf w h).2))

/-- shader.js line 70: `edge = 1.0 - smoothstep(-1.5, 0.5, d)`. -/
def edgeOf (d : ℝ) : ℝ := 1 - smoothstep (-1.5) 0.5 d

/-- shader.js lines 59-147: the per-pixel shader `main`, returning the RGB of
`cogl_color_out` (the alpha component is the constant `1.0` and is omitted).
Uniform arguments appear in their declaration order in the shader source. -/
def main (tex : Vec2 → Vec3)
    (width height u_ior u_ca u_dist u_cr u_fres u_tint_r u_tint_g u_tint_b u_tint_a u_blur : ℝ)
    (v_uv : Vec2) : Vec3 :=
  let p := pOf width height v_uv
  let hs := hsOf width height
  let edge := edgeOf (dOf width height u_cr v_uv)
  let N := NOf p hs
  let col0 := colSample tex v_uv (width, height) (1 / width, 1 / height)
      u_ior u_ca u_dist u_blur N
  let fBase := 1 - max N.2.2 0
  let fres := fBase * fBase * fBase * u_fres
  let col1 : Vec3 := (col0.1 + fres * 0.85, col0.2.1 + fres * 0.9, col0.2.2 + fres * 1.0)
  let sb := max (dot3 N HALF_VEC) 0
  let spec := specChain sb
  let col2 : Vec3 := (col1.1 + spec * 1.0, col1.2.1 + spec * 0.98, col1.2.2 + spec * 0.95)
  let col3 := mix3 col2 (col2.1 * u_tint_r, col2.2.1 * u_tint_g, col2.2.2 * u_tint_b) u_tint_a
  let lift := (1 - htOf p hs) * 0.012
  let col4 : Vec3 := (col3.1 + lift, col3.2.1 + lift, col3.2.2 + lift)
  mix3 (tex v_uv) col4 edge

/-- Spec-side closed form for the blurred tap (section 4.2 step 5 of the
spec, as restated by the claim): the average of exactly 12 samples, tap `i`
at radius `sqrt((i+0.5)/12) * blur`, angle `i * 2.39996323`, offset
`(cos a, sin a) * r * invRes`, every sample coordinate (including the base
`uv`) clamped per axis to `[invRes, 1 - invRes]` before sampling.  To be
compared with the implementation loop in `tap`. -/
def tapSpecFormula (tex : Vec2 → Vec3) (uv invRes : Vec2) (blur : ℝ) : Vec3 :=
  smul3 (1 / 12)
    (∑ i ∈ Finset.range 12,
      tex (clamp2 (clamp2 uv invRes (1 - invRes.1, 1 - invRes.2) +
            (Real.cos ((i : ℝ) * 2.39996323) * (Real.sqrt (((i : ℝ) + 0.5) / 12) * blur) * invRes.1,
             Real.sin ((i : ℝ) * 2.39996323) * (Real.sqrt (((i : ℝ) + 0.5) / 12) * blur) * invRes.2))
          invRes (1 - invRes.1, 1 - invRes.2)))

/-- effect.js lines 39-45: the stored shader-parameter properties of
`LiquidGlassEffect` (`this._ior`, `this._ca`, …).  JavaScript numbers are
modelled as rationals; this path performs no irrational arithmetic. -/
structure EffectState where
  ior : ℚ
  ca : ℚ
  dist : ℚ
  cr : ℚ
  fres : ℚ
  blur : ℚ
  tint_r : ℚ
  tint_g : ℚ
  tint_b : ℚ
  tint_a : ℚ

/-- The stored values behind each uniform name, in the order
`vfunc_paint_target` uploads them (effect.js lines 69-86). -/
def storedUniforms (w hgt : ℚ) (s : EffectState) : List (String × ℚ) :=
  [("width", w), ("height", hgt),
   ("u_ior", s.ior), ("u_ca", s.ca), ("u_dist", s.dist), ("u_cr", s.cr),
   ("u_fres", s.fres), ("u_blur", s.blur),
   ("u_tint_r", s.tint_r), ("u_tint_g", s.tint_g), ("u_tint_b", s.tint_b),
   ("u_tint_a", s.tint_a)]

/-- effect.js lines 69-86: the name/value pairs passed to
`set_uniform_value` by `vfunc_paint_target` — each stored value minus `1e-6`
(`parseFloat` applied to a finite JavaScript number is the identity and is
dropped). -/
def paintUniforms (w hgt : ℚ) (s : EffectState) : List (String × ℚ) :=
  [("width", w - 1/1000000), ("height", hgt - 1/1000000),
   ("u_ior", s.ior - 1/1000000), ("u_ca", s.ca - 1/1000000),
   ("u_dist", s.dist - 1/1000000), ("u_cr", s.cr - 1/1000000),
   ("u_fres", s.fres - 1/1000000), ("u_blur", s.blur - 1/1000000),
   ("u_tint_r", s.tint_r - 1/1000000), ("u_tint_g", s.tint_g - 1/1000000),
   ("u_tint_b", s.tint_b - 1/1000000), ("u_tint_a", s.tint_a - 1/1000000)]

/-! ## Helper lemmas -/

/-- `mix` with interpolant `0` returns its first argument unchanged. -/
lemma mix_zero (x y : ℝ) : mix x y 0 = x := by
  simp [mix]

/-- `mix3` with interpolant `0` returns its first argument unchanged. -/
lemma mix3_zero (x y : Vec3) : mix3 x y 0 = x := by
  simp [mix3, mix]

/-- Normalizing any vector whose `z`-component is `1` yields an exactly
unit-length vector. -/
lemma length3_normalize3_one (g1 g2 : ℝ) : length3 (normalize3 (g1, g2, 1)) = 1 := by
  have hpos : (0:ℝ) < g1 ^ 2 + g2 ^ 2 + 1 ^ 2 := by positivity
  have hL2 : Real.sqrt (g1 ^ 2 + g2 ^ 2 + 1 ^ 2) ^ 2 = g1 ^ 2 + g2 ^ 2 + 1 ^ 2 :=
    Real.sq_sqrt hpos.le
  have harg : (g1 / Real.sqrt (g1 ^ 2 + g2 ^ 2 + 1 ^ 2)) ^ 2 +
      (g2 / Real.sqrt (g1 ^ 2 + g2 ^ 2 + 1 ^ 2)) ^ 2 +
      (1 / Real.sqrt (g1 ^ 2 + g2 ^ 2 + 1 ^ 2)) ^ 2 = 1 := by
    rw [div_pow, div_pow, div_pow, div_add_div_same, div_add_div_same, hL2]
    exact div_self (ne_of_gt hpos)
  simp only [normalize3, length3]
  rw [harg, Real.sqrt_one]

/-- The accumulation loop of `tap` computes the finite sum of the 12 spiral
samples. -/
lemma tapSum_eq_sum (tex : Vec2 → Vec3) (uv invRes : Vec2) (blur : ℝ) (n : ℕ) :
    tapSum tex uv invRes blur n =
      ∑ i ∈ Finset.range n,
        tex (clamp2 (uv + tapOffset i blur invRes) invRes (1 - invRes.1, 1 - invRes.2)) := by
  induction n with
  | zero => simp [tapSum]
  | succ n ih => rw [Finset.sum_range_succ, ← ih]; rfl

/-! ## Claim theorems -/

/-- C9: the specular multiply chain of shader.js lines 130-137 equals the
reference `max(dot(N, H), 0)` raised exactly to the 80th power and scaled by
`0.45`, for every base value `sb`. -/
theorem C9_specular_pow80 (sb : ℝ) : specChain sb = sb ^ 80 * 0.45 := by
  simp only [specChain]
  ring

/-- C5 (amended): with `blur < 0.5`, `tap` performs a single direct
background sample — at the per-axis clamp of `uv` to `[invRes, 1 - invRes]`,
which coincides with `uv` itself whenever `uv` already lies in that range.
No spiral accumulation occurs. -/
theorem C5_blur_bypass (tex : Vec2 → Vec3) (uv invRes : Vec2) (blur : ℝ)
    (h : blur < 0.5) :
    tap tex uv invRes blur = tex (clamp2 uv invRes (1 - invRes.1, 1 - invRes.2)) ∧
    (invRes.1 ≤ uv.1 → uv.1 ≤ 1 - invRes.1 → invRes.2 ≤ uv.2 → uv.2 ≤ 1 - invRes.2 →
      tap tex uv invRes blur = tex uv) := by
  have h1 : tap tex uv invRes blur = tex (clamp2 uv invRes (1 - invRes.1, 1 - invRes.2)) := by
    simp only [tap]
    rw [if_pos h]
  refine ⟨h1, fun ha hb hc hd => ?_⟩
  rw [h1]
  have hcl : clamp2 uv invRes (1 - invRes.1, 1 - invRes.2) = uv := by
    simp only [clamp2, clamp]
    exact Prod.ext (by rw [max_eq_left ha]; exact min_eq_left hb)
      (by rw [max_eq_left hc]; exact min_eq_left hd)
  rw [hcl]

/-- C5 witness: the bypass theorem instantiated at `blur = 0` with an
in-range coordinate, where the clamp is the identity. -/
theorem C5_blur_bypass_witness :
    (0:ℝ) < 0.5 ∧
    tap (fun q => (q.1, q.2, 0)) (1/2, 1/2) (1/4, 1/4) 0 =
      (fun q : Vec2 => (q.1, q.2, (0:ℝ)))
        (clamp2 (1/2, 1/2) (1/4, 1/4) (1 - (1/4 : ℝ), 1 - (1/4 : ℝ))) :=
  ⟨by norm_num,
    (C5_blur_bypass (fun q => (q.1, q.2, 0)) (1/2, 1/2) (1/4, 1/4) 0 (by norm_num)).1⟩

/-- C5 counterexample: the claim as stated ("equals a single direct
background sample at `uv`, for every `uv`") fails when `uv` lies outside
`[invRes, 1 - invRes]`: with `tex q = (q.x, q.x, q.x)`, `uv = (2, 1/2)`,
`invRes = (1/4, 1/4)` and `blur = 0 < 0.5`, the code samples at the clamped
coordinate `(3/4, 1/2)` and returns `(3/4, 3/4, 3/4)`, not the direct sample
`(2, 2, 2)` at `uv`. -/
theorem C5_counterexample :
    (0:ℝ) < 0.5 ∧
    tap (fun q => (q.1, q.1, q.1)) (2, 1/2) (1/4, 1/4) 0 ≠ ((2:ℝ), 2, 2) := by
  refine ⟨by norm_num, ?_⟩
  have h : tap (fun q => (q.1, q.1, q.1)) (2, 1/2) (1/4, 1/4) 0 =
      (((3:ℝ)/4), (3:ℝ)/4, (3:ℝ)/4) := by
    simp only [tap, clamp2, clamp]
    rw [if_pos (by norm_num)]
    norm_num [min_def, max_def]
  rw [h]
  intro hcon
  have := congrArg Prod.fst hcon
  norm_num at this

/-- C2: at the exact rect centre `p = (0, 0)` and for every valid
half-extent `hs`, the estimator produces `t = 1`, an exactly zero height
gradient, and the exact unit normal `N = (0, 0, 1)`. -/
theorem C2_center_normal (hs : Vec2) (h1 : 0 < hs.1) (h2 : 0 < hs.2) :
    tOf (0, 0) hs = 1 ∧ hGradOf (0, 0) hs = (0, 0) ∧ NOf (0, 0) hs = (0, 0, 1) := by
  have hax : axOf (0, 0) hs = 1 := by
    simp [axOf, qOf, min_eq_left, max_eq_left]
  have hay : ayOf (0, 0) hs = 1 := by
    simp [ayOf, qOf, min_eq_left, max_eq_left]
  have ht : tOf (0, 0) hs = 1 := by
    rw [tOf, hax, hay, mul_one]
  have hg : hGradOf (0, 0) hs = (0, 0) := by
    simp [hGradOf]
  refine ⟨ht, hg, ?_⟩
  simp only [NOf, hg]
  norm_num [normalize3, length3, Real.sqrt_one]

/-- C2 witness: the centre-normal theorem instantiated at `hs = (1, 1)`. -/
theorem C2_center_normal_witness :
    (0:ℝ) < 1 ∧ (0:ℝ) < 1 ∧
    (tOf (0, 0) (1, 1) = 1 ∧ hGradOf (0, 0) (1, 1) = (0, 0) ∧
      NOf (0, 0) (1, 1) = (0, 0, 1)) :=
  ⟨by norm_num, by norm_num, C2_center_normal (1, 1) (by norm_num) (by norm_num)⟩

/-- C3: for every pixel inside the tested boundary margin (and in fact for
every `p` whatsoever), the estimator's divisions are guarded — the height
base is clamped to at least `1e-6` and the derivative denominator to at least
`0.08` — and the normal `N` is unit length within `1e-4` (it is exactly unit
length, since the pre-normalization vector has `z = 1` and hence nonzero
length; in this real-valued model every component is therefore a well-defined
finite real). -/
theorem C3_normal_finite_unit (p hs : Vec2) (h1 : 0 < hs.1) (h2 : 0 < hs.2)
    (hx : |p.1| ≤ 1.5 * hs.1) (hy : |p.2| ≤ 1.5 * hs.2) :
    1e-6 ≤ baseOf p hs ∧
    0.08 ≤ max (Real.sqrt (baseOf p hs) * htOf p hs) 0.08 ∧
    |length3 (NOf p hs) - 1| ≤ 1e-4 := by
  refine ⟨?_, le_max_right _ _, ?_⟩
  · simp only [baseOf]
    exact le_max_right _ _
  · have hN : length3 (NOf p hs) = 1 := by
      simp only [NOf]
      exact length3_normalize3_one _ _
    rw [hN]
    norm_num

/-- C3 witness: the finiteness/unit-length theorem instantiated at
`p = (1, 0)`, `hs = (1, 1)`. -/
theorem C3_normal_finite_unit_witness :
    (0:ℝ) < 1 ∧ |(1:ℝ)| ≤ 1.5 * 1 ∧ |(0:ℝ)| ≤ 1.5 * 1 ∧
    (1e-6 ≤ baseOf (1, 0) (1, 1) ∧
     0.08 ≤ max (Real.sqrt (baseOf (1, 0) (1, 1)) * htOf (1, 0) (1, 1)) 0.08 ∧
     |length3 (NOf (1, 0) (1, 1)) - 1| ≤ 1e-4) :=
  ⟨by norm_num, by norm_num, by norm_num,
    C3_normal_finite_unit (1, 0) (1, 1) (by norm_num) (by norm_num)
      (by norm_num) (by norm_num)⟩

/-- C1: whenever the rounded-rectangle signed distance at a pixel exceeds
`1`, the edge mask is exactly `0` and the shader output equals the untouched
background sample at the pixel's own coordinate, for arbitrary values of all
optical uniforms (refraction, blur, Fresnel, specular and tint included). -/
theorem C1_edge_containment (tex : Vec2 → Vec3)
    (w h ior ca dist cr fres tr tg tb ta blur : ℝ) (v_uv : Vec2)
    (hd : 1 < dOf w h cr v_uv) :
    main tex w h ior ca dist cr fres tr tg tb ta blur v_uv = tex v_uv := by
  have h1 : 1 ≤ (dOf w h cr v_uv - (-1.5)) / (0.5 - (-1.5)) := by
    rw [le_div_iff (by norm_num)]
    linarith
  have hss : smoothstep (-1.5) 0.5 (dOf w h cr v_uv) = 1 := by
    simp only [smoothstep, clamp]
    rw [max_eq_left (le_trans zero_le_one h1), min_eq_right h1]
    norm_num
  have hedge : edgeOf (dOf w h cr v_uv) = 0 := by
    rw [edgeOf, hss]
    norm_num
  simp only [main, hedge, mix3_zero]

/-- C1 witness: at `w = h = 2`, `cr = 0`, `v_uv = (2, 1/2)` the pixel sits at
`p = (3, 0)` with signed distance `2 > 1`, and the output is exactly the
background sample there. -/
theorem C1_edge_containment_witness :
    1 < dOf 2 2 0 (2, 1/2) ∧
    main (fun _ => ((1:ℝ)/10, 1/5, 3/10)) 2 2 1.45 0.008 0.8 0 0.25 1 1 1 0.8 2 (2, 1/2) =
      ((1:ℝ)/10, 1/5, 3/10) := by
  have hsqrt4 : Real.sqrt 4 = 2 := by
    rw [show (4:ℝ) = 2 ^ 2 by norm_num]
    exact Real.sqrt_sq (by norm_num)
  have hd : 1 < dOf 2 2 0 (2, 1/2) := by
    rw [dOf]
    norm_num [pOf, hsOf, sdf, length2, abs_eq_max_neg, min_def, max_def, hsqrt4]
  exact ⟨hd, C1_edge_containment _ 2 2 1.45 0.008 0.8 0 0.25 1 1 1 0.8 2 (2, 1/2) hd⟩

/-- C4: when total internal reflection occurs for the green-channel ray
(the squared length of `refract(I, N, 1/ior)` is below `0.001`), the
fallback replaces `rG` by the incident ray `I = (0, 0, -1)`, whose `xy` part
is zero, so the green sampling coordinate `uvG` equals the pixel's own
unshifted coordinate `v_uv`; the evaluation is a total function, so no error
is raised. -/
theorem C4_tir_fallback (N : Vec3) (ior : ℝ) (v_uv res : Vec2) (dist : ℝ)
    (h : dot3 (refract I3 N (1 / ior)) (refract I3 N (1 / ior)) < 0.001) :
    rGOf N ior = I3 ∧ uvGOf v_uv res dist N ior = v_uv := by
  have hr : rGOf N ior = I3 := by
    simp only [rGOf]
    rw [if_pos h]
  refine ⟨hr, ?_⟩
  simp only [uvGOf, hr, I3]
  exact Prod.ext (by norm_num) (by norm_num)

/-- C4 witness: with `N = (1, 0, 0)` and `ior = 1/2` (so `eta = 2`), `k < 0`
and `refract` returns the zero vector, triggering the fallback. -/
theorem C4_tir_fallback_witness :
    dot3 (refract I3 ((1:ℝ), 0, 0) (1 / (1/2))) (refract I3 ((1:ℝ), 0, 0) (1 / (1/2))) < 0.001 ∧
    (rGOf ((1:ℝ), 0, 0) (1/2) = I3 ∧ uvGOf (3/10, 7/10) (2, 2) 0.8 ((1:ℝ), 0, 0) (1/2) = (3/10, 7/10)) := by
  have hzero : refract I3 ((1:ℝ), 0, 0) (1 / (1/2)) = (0, 0, 0) := by
    simp only [refract, I3, dot3]
    rw [if_pos (by norm_num)]
  have hk : dot3 (refract I3 ((1:ℝ), 0, 0) (1 / (1/2)))
      (refract I3 ((1:ℝ), 0, 0) (1 / (1/2))) < 0.001 := by
    rw [hzero]
    norm_num [dot3]
  exact ⟨hk, C4_tir_fallback ((1:ℝ), 0, 0) (1/2) (3/10, 7/10) (2, 2) 0.8 hk⟩

/-- C6: whenever `blur ≥ 0.5`, `tap` returns the average of exactly 12
samples on the golden-angle spiral — tap `i` at radius `sqrt((i+0.5)/12) * blur`,
angle `i * 2.39996323`, offset `(cos a, sin a) * r * invRes` — with every
sample coordinate (including the base `uv`) clamped per axis to
`[invRes, 1 - invRes]` before sampling, exactly as the spec-side closed form
`tapSpecFormula` states. -/
theorem C6_spiral_blur (tex : Vec2 → Vec3) (uv invRes : Vec2) (blur : ℝ)
    (h : 0.5 ≤ blur) :
    tap tex uv invRes blur = tapSpecFormula tex uv invRes blur := by
  have hoff : ∀ i : ℕ, tapOffset i blur invRes =
      (Real.cos ((i : ℝ) * 2.39996323) * (Real.sqrt (((i : ℝ) + 0.5) / 12) * blur) * invRes.1,
       Real.sin ((i : ℝ) * 2.39996323) * (Real.sqrt (((i : ℝ) + 0.5) / 12) * blur) * invRes.2) := by
    intro i
    simp only [tapOffset, GA, mul_one_div]
  simp only [tap, tapSpecFormula]
  rw [if_neg (not_lt.mpr h), tapSum_eq_sum]
  congr 1
  refine Finset.sum_congr rfl fun i _ => ?_
  rw [hoff]

/-- C6 witness: the spiral equivalence instantiated at `blur = 2`. -/
theorem C6_spiral_blur_witness :
    (0.5:ℝ) ≤ 2 ∧
    tap (fun q => (q.1, q.2, 0)) (1/2, 1/2) (1/100, 1/100) 2 =
      tapSpecFormula (fun q => (q.1, q.2, 0)) (1/2, 1/2) (1/100, 1/100) 2 :=
  ⟨by norm_num, C6_spiral_blur _ (1/2, 1/2) (1/100, 1/100) 2 (by norm_num)⟩

/-- C7: when the chromatic-aberration uniform satisfies `ca ≤ 0.001`, the
red/blue branch is not taken and the colour is a single `tap` at the green
coordinate `uvG` — all three output channels are therefore sampled at the one
identical coordinate, with identical (zero) R/G/B offset differences. -/
theorem C7_ca_bypass (tex : Vec2 → Vec3) (v_uv res invRes : Vec2)
    (ior ca dist blur : ℝ) (N : Vec3) (h : ca ≤ 0.001) :
    colSample tex v_uv res invRes ior ca dist blur N =
      tap tex (uvGOf v_uv res dist N ior) invRes blur := by
  simp only [colSample]
  rw [if_neg (not_lt.mpr h)]

/-- C7 witness: the chromatic-aberration bypass instantiated at `ca = 0`. -/
theorem C7_ca_bypass_witness :
    (0:ℝ) ≤ 0.001 ∧
    colSample (fun q => (q.1, q.2, 1)) (1/2, 1/2) (2, 2) (1/2, 1/2) 1.45 0 0.8 0 (0, 0, 1) =
      tap (fun q => (q.1, q.2, 1)) (uvGOf (1/2, 1/2) (2, 2) 0.8 (0, 0, 1) 1.45) (1/2, 1/2) 0 :=
  ⟨by norm_num, C7_ca_bypass _ _ _ _ 1.45 0 0.8 0 _ (by norm_num)⟩

/-- C10: every uniform uploaded by `vfunc_paint_target` carries the stored
property value minus `1e-6`, hence a value strictly smaller than the
configured setting; in particular a configured `ior` of `1.0` reaches the
shader as `0.999999` (below the declared minimum of `1.0`) and a tint
channel of `0` reaches it as `-1e-6`. -/
theorem C10_uniform_epsilon (w hgt : ℚ) (s : EffectState) :
    List.Forall₂ (fun u v => u.1 = v.1 ∧ u.2 = v.2 - 1/1000000 ∧ u.2 < v.2)
      (paintUniforms w hgt s) (storedUniforms w hgt s) ∧
    (paintUniforms w hgt
        ⟨1, s.ca, s.dist, s.cr, s.fres, s.blur, 0, s.tint_g, s.tint_b, s.tint_a⟩)[2]? =
      some ("u_ior", (999999/1000000 : ℚ)) ∧
    (999999:ℚ)/1000000 < 1 ∧
    (paintUniforms w hgt
        ⟨1, s.ca, s.dist, s.cr, s.fres, s.blur, 0, s.tint_g, s.tint_b, s.tint_a⟩)[8]? =
      some ("u_tint_r", (-(1/1000000) : ℚ)) := by
  refine ⟨?_, ?_, by norm_num, ?_⟩
  · simp only [paintUniforms, storedUniforms, List.forall₂_cons, List.Forall₂.nil,
      and_true, true_and]
    norm_num
  · simp only [paintUniforms]
    norm_num
  · simp only [paintUniforms]
    norm_num

/-- One output channel of `main` written as a function of the Fresnel
parameter is strictly increasing whenever the edge coverage, the per-channel
tint multiplier `1 - ta*(1 - tc)`, the Fresnel base and the channel weight
are all positive. -/
lemma channel_mono (bgc c0c s2c L e tc ta fB w1 f1 f2 : ℝ)
    (he : 0 < e) (hm : 0 < 1 - ta * (1 - tc)) (hfB : 0 < fB) (hw : 0 < w1)
    (hf : f1 < f2) :
    mix bgc (mix (c0c + fB * fB * fB * f1 * w1 + s2c)
        ((c0c + fB * fB * fB * f1 * w1 + s2c) * tc) ta + L) e <
      mix bgc (mix (c0c + fB * fB * fB * f2 * w1 + s2c)
        ((c0c + fB * fB * fB * f2 * w1 + s2c) * tc) ta + L) e := by
  simp only [mix]
  have key :
      bgc * (1 - e) + ((c0c + fB * fB * fB * f2 * w1 + s2c) * (1 - ta) +
        (c0c + fB * fB * fB * f2 * w1 + s2c) * tc * ta + L) * e -
      (bgc * (1 - e) + ((c0c + fB * fB * fB * f1 * w1 + s2c) * (1 - ta) +
        (c0c + fB * fB * fB * f1 * w1 + s2c) * tc * ta + L) * e) =
      e * (1 - ta * (1 - tc)) * (fB * fB * fB * (w1 * (f2 - f1))) := by
    ring
  have hp : 0 < e * (1 - ta * (1 - tc)) * (fB * fB * fB * (w1 * (f2 - f1))) :=
    mul_pos (mul_pos he hm)
      (mul_pos (mul_pos (mul_pos hfB hfB) hfB) (mul_pos hw (sub_pos.mpr hf)))
  linarith [key, hp]

/-- Probe point for the silhouette: `v_uv = (1, 1/2)` on a `2 × 2` panel
lands at local position `p = (1, 0)`, exactly on the right edge. -/
lemma pOf_probe : pOf 2 2 (1, 1/2) = (1, 0) := by
  norm_num [pOf]

/-- Half extents of the `2 × 2` probe panel. -/
lemma hsOf_probe : hsOf 2 2 = (1, 1) := by
  norm_num [hsOf]

/-- At the probe point the x-axis parabola falloff vanishes. -/
lemma ax_probe : axOf (1, 0) (1, 1) = 0 := by
  norm_num [axOf, qOf, min_def, max_def]

/-- At the probe point the y-axis parabola falloff is `1`. -/
lemma ay_probe : ayOf (1, 0) (1, 1) = 1 := by
  norm_num [ayOf, qOf, min_def, max_def]

/-- At the probe point the combined dome parameter is `0`. -/
lemma t_probe : tOf (1, 0) (1, 1) = 0 := by
  rw [tOf, ax_probe, ay_probe, zero_mul]

/-- At the probe point the clamped height base is exactly `1e-6`. -/
lemma base_probe : baseOf (1, 0) (1, 1) = 1e-6 := by
  simp only [baseOf, t_probe]
  norm_num [max_def]

/-- Square root of the clamped base at the probe point. -/
lemma sqrtbase_probe : Real.sqrt (baseOf (1, 0) (1, 1)) = 1e-3 := by
  rw [base_probe, show (1e-6:ℝ) = (1e-3) ^ 2 by norm_num]
  exact Real.sqrt_sq (by norm_num)

/-- The squircle height at the probe point is at most `1`. -/
lemma ht_probe_le : htOf (1, 0) (1, 1) ≤ 1 := by
  rw [htOf, sqrtbase_probe]
  exact Real.sqrt_le_one.mpr (by norm_num)

/-- At the probe point the derivative-denominator clamp `0.08` is active. -/
lemma hpD_probe :
    max (Real.sqrt (baseOf (1, 0) (1, 1)) * htOf (1, 0) (1, 1)) 0.08 = 0.08 := by
  rw [max_eq_right]
  rw [sqrtbase_probe]
  have h1 := ht_probe_le
  have h0 : 0 ≤ htOf (1, 0) (1, 1) := by
    rw [htOf]
    exact Real.sqrt_nonneg _
  linarith

/-- The clamped height derivative at the probe point. -/
lemma hp_probe : hpOf (1, 0) (1, 1) = 12.5 := by
  simp only [hpOf, t_probe, hpD_probe]
  norm_num

/-- The height gradient at the probe point. -/
lemma hGrad_probe : hGradOf (1, 0) (1, 1) = (-25, 0) := by
  simp only [hGradOf, hp_probe, ax_probe, ay_probe]
  norm_num

/-- Strict lower bound used for the silhouette normal. -/
lemma sqrt_1562501_gt_one : 1 < Real.sqrt 1562501 := by
  have h : Real.sqrt 1 < Real.sqrt 1562501 :=
    Real.sqrt_lt_sqrt (by norm_num) (by norm_num)
  rwa [Real.sqrt_one] at h

/-- The dome normal at the probe point: strongly tilted toward `+x`. -/
lemma N_probe : NOf (pOf 2 2 (1, 1/2)) (hsOf 2 2) =
    (1250 / Real.sqrt 1562501, 0, 1 / Real.sqrt 1562501) := by
  rw [pOf_probe, hsOf_probe, NOf, hGrad_probe]
  simp only [normalize3, length3]
  norm_num

/-- The `z`-component of the probe normal is strictly below `1` (genuine
silhouette tilt). -/
lemma Nz_probe_lt : (NOf (pOf 2 2 (1, 1/2)) (hsOf 2 2)).2.2 < 1 := by
  rw [N_probe]
  have h1 := sqrt_1562501_gt_one
  have h0 : (0:ℝ) < Real.sqrt 1562501 := lt_trans one_pos h1
  show (1:ℝ) / Real.sqrt 1562501 < 1
  exact (div_lt_one h0).mpr h1

/-- The signed distance at the probe point is exactly `0` (the silhouette). -/
lemma dOf_probe : dOf 2 2 0 (1, 1/2) = 0 := by
  rw [dOf, pOf_probe, hsOf_probe]
  norm_num [sdf, length2, abs_eq_max_neg, min_def, max_def, Real.sqrt_zero]

/-- The edge coverage at the probe point is `0.15625 > 0`. -/
lemma edge_probe : edgeOf (dOf 2 2 0 (1, 1/2)) = 0.15625 := by
  rw [dOf_probe]
  norm_num [edgeOf, smoothstep, clamp, min_def, max_def]

/-- C8 (amended): at a fixed silhouette point — one with positive edge
coverage and a normal whose `z`-component is below `1` — and with every
per-channel tint multiplier `1 - ta*(1 - t_c)` positive (as holds e.g.
whenever `ta < 1` or all tint channels are positive), the final output is
strictly increasing in the Fresnel strength parameter in every channel,
holding everything else constant. -/
theorem C8_fresnel_mono (tex : Vec2 → Vec3)
    (w h ior ca dist cr tr tg tb ta blur f1 f2 : ℝ) (v_uv : Vec2)
    (hE : 0 < edgeOf (dOf w h cr v_uv))
    (hZ : (NOf (pOf w h v_uv) (hsOf w h)).2.2 < 1)
    (htr : 0 < 1 - ta * (1 - tr))
    (htg : 0 < 1 - ta * (1 - tg))
    (htb : 0 < 1 - ta * (1 - tb))
    (hf : f1 < f2) :
    (main tex w h ior ca dist cr f1 tr tg tb ta blur v_uv).1 <
      (main tex w h ior ca dist cr f2 tr tg tb ta blur v_uv).1 ∧
    (main tex w h ior ca dist cr f1 tr tg tb ta blur v_uv).2.1 <
      (main tex w h ior ca dist cr f2 tr tg tb ta blur v_uv).2.1 ∧
    (main tex w h ior ca dist cr f1 tr tg tb ta blur v_uv).2.2 <
      (main tex w h ior ca dist cr f2 tr tg tb ta blur v_uv).2.2 := by
  have hfB : 0 < 1 - max (NOf (pOf w h v_uv) (hsOf w h)).2.2 0 := by
    have hm : max (NOf (pOf w h v_uv) (hsOf w h)).2.2 0 < 1 := max_lt hZ one_pos
    linarith
  refine ⟨?_, ?_, ?_⟩
  · simp only [main, mix3]
    exact channel_mono _ _ _ _ _ _ _ _ _ _ _ hE htr hfB (by norm_num) hf
  · simp only [main, mix3]
    exact channel_mono _ _ _ _ _ _ _ _ _ _ _ hE htg hfB (by norm_num) hf
  · simp only [main, mix3]
    exact channel_mono _ _ _ _ _ _ _ _ _ _ _ hE htb hfB (by norm_num) hf

/-- C8 witness: the monotonicity theorem instantiated at the silhouette
probe point with a uniform gray background, default-like parameters
(`tint = (1,1,1,0.8)`), and Fresnel values `0 < 1/4`. -/
theorem C8_fresnel_mono_witness :
    0 < edgeOf (dOf 2 2 0 (1, 1/2)) ∧
    (NOf (pOf 2 2 (1, 1/2)) (hsOf 2 2)).2.2 < 1 ∧
    (0:ℝ) < 1 - 0.8 * (1 - 1) ∧
    (0:ℝ) < 1/4 ∧
    ((main (fun _ => ((1:ℝ)/2, 1/2, 1/2)) 2 2 1.45 0 0.8 0 0 1 1 1 0.8 0 (1, 1/2)).1 <
      (main (fun _ => ((1:ℝ)/2, 1/2, 1/2)) 2 2 1.45 0 0.8 0 (1/4) 1 1 1 0.8 0 (1, 1/2)).1 ∧
     (main (fun _ => ((1:ℝ)/2, 1/2, 1/2)) 2 2 1.45 0 0.8 0 0 1 1 1 0.8 0 (1, 1/2)).2.1 <
      (main (fun _ => ((1:ℝ)/2, 1/2, 1/2)) 2 2 1.45 0 0.8 0 (1/4) 1 1 1 0.8 0 (1, 1/2)).2.1 ∧
     (main (fun _ => ((1:ℝ)/2, 1/2, 1/2)) 2 2 1.45 0 0.8 0 0 1 1 1 0.8 0 (1, 1/2)).2.2 <
      (main (fun _ => ((1:ℝ)/2, 1/2, 1/2)) 2 2 1.45 0 0.8 0 (1/4) 1 1 1 0.8 0 (1, 1/2)).2.2) := by
  refine ⟨by rw [edge_probe]; norm_num, Nz_probe_lt, by norm_num, by norm_num, ?_⟩
  exact C8_fresnel_mono _ 2 2 1.45 0 0.8 0 1 1 1 0.8 0 0 (1/4) (1, 1/2)
    (by rw [edge_probe]; norm_num) Nz_probe_lt (by norm_num) (by norm_num)
    (by norm_num) (by norm_num)

/-- C8 counterexample: the claim as stated fails inside the valid parameter
ranges.  At the same silhouette probe point (positive edge coverage, tilted
normal), with tint `(tr, tg, tb, ta) = (0, 1, 1, 1)` — a fully opaque tint
with a zero red channel — the red tint multiplier is `0`, so the red output
channel is identical under Fresnel strengths `0` and `1` instead of strictly
increasing. -/
theorem C8_counterexample :
    0 < edgeOf (dOf 2 2 0 (1, 1/2)) ∧
    (NOf (pOf 2 2 (1, 1/2)) (hsOf 2 2)).2.2 < 1 ∧
    (0:ℝ) < 1 ∧
    ¬ ((main (fun _ => ((1:ℝ)/2, 1/2, 1/2)) 2 2 1.45 0 0.8 0 0 0 1 1 1 0 (1, 1/2)).1 <
       (main (fun _ => ((1:ℝ)/2, 1/2, 1/2)) 2 2 1.45 0 0.8 0 1 0 1 1 1 0 (1, 1/2)).1) := by
  refine ⟨by rw [edge_probe]; norm_num, Nz_probe_lt, by norm_num, ?_⟩
  have heq : (main (fun _ => ((1:ℝ)/2, 1/2, 1/2)) 2 2 1.45 0 0.8 0 0 0 1 1 1 0 (1, 1/2)).1 =
      (main (fun _ => ((1:ℝ)/2, 1/2, 1/2)) 2 2 1.45 0 0.8 0 1 0 1 1 1 0 (1, 1/2)).1 := by
    simp only [main, mix3, mix]
    ring
  rw [heq]
  exact lt_irrefl _

end LiquidGlass

end
